import Mathlib

/-!
Shallow embedding of the chronly/jsonrpc2 wire codec and peer engine
(error.go, transport.go, transport_id.go), with theorems checking the
specification's claims against it.

JSON byte sequences are modelled at the level of JSON values: `Json.int`
stands for a numeric literal with integer syntax, `Json.float` for any
other numeric literal (Go's `encoding/json` decodes the former into
`int64` and rejects the latter).  `Raw` models Go's `json.RawMessage`
slices, distinguishing the nil slice, the non-nil empty slice (whose
marshalling fails inside `encoding/json` with "unexpected end of JSON
input"), and a slice holding one valid JSON value.
-/

namespace Jsonrpc2

/-- A JSON value.  Object fields are kept in order; duplicate keys are
decoded last-wins, mirroring `encoding/json`. -/
inductive Json where
  | null
  | bool (b : Bool)
  | int (n : Int)
  | float
  | str (s : String)
  | arr (elems : List Json)
  | obj (fields : List (String × Json))

/-- Whether a JSON object contains a given key. -/
def Json.hasKey (j : Json) (k : String) : Bool :=
  match j with
  | .obj fs => fs.any (fun f => f.1 = k)
  | _ => false

/-- First value stored under a key of a JSON object. -/
def Json.getKey (j : Json) (k : String) : Option Json :=
  match j with
  | .obj fs => (fs.find? (fun f => f.1 = k)).map Prod.snd
  | _ => none

/-- Go's `json.RawMessage`: nil slice, non-nil empty slice, or bytes
holding one valid JSON value. -/
inductive Raw where
  | nil
  | empty
  | val (j : Json)

/-- `len(raw) > 0` of the modelled `json.RawMessage` (a valid JSON value
is never zero bytes). -/
def Raw.isPos (r : Raw) : Bool :=
  match r with
  | .val _ => true
  | _ => false

/-- `raw == nil` for the modelled `json.RawMessage`. -/
def Raw.isNil (r : Raw) : Bool :=
  match r with
  | .nil => true
  | _ => false

/-- Marshalling a `json.RawMessage` struct field: a nil slice encodes as
JSON null, a non-nil empty slice makes `json.Marshal` fail, and valid
bytes pass through. -/
def rawFieldMarshal (r : Raw) : Except String Json :=
  match r with
  | .nil => .ok .null
  | .empty => .error "unexpected end of JSON input"
  | .val j => .ok j

def int64Min : Int := -(2 ^ 63)
def int64Max : Int := 2 ^ 63 - 1

/-- transport_id.go: `idType`. -/
inductive idType where
  | null
  | string
  | number
deriving DecidableEq

/-- transport_id.go: `id`.  The zero value (`newUndefinedID`) has
`ty = idTypeNull` and `defined = false`, exactly as in Go. -/
structure id where
  value : String
  ty : idType
  defined : Bool
deriving DecidableEq

def newUndefinedID : id := ⟨"", .null, false⟩

def newNullID : id := ⟨"", .null, true⟩

def newStringID (value : String) : id := ⟨value, .string, true⟩

def newNumberID (value : Int) : id := ⟨toString value, .number, true⟩

def id.IsNull (v : id) : Bool := v.ty = .null

def id.IsString (v : id) : Bool := v.ty = .string

def id.IsNumber (v : id) : Bool := v.ty = .number

def id.IsUndefined (v : id) : Bool := !v.defined

/-- transport_id.go: `id.UnmarshalJSON`.  Decoding into `*int64` first
covers null and integer literals in signed-64 range; then a string is
tried; anything else is an error. -/
def idUnmarshalJSON (j : Json) : Except String id :=
  match j with
  | .null => .ok newNullID
  | .int n =>
    if int64Min ≤ n ∧ n ≤ int64Max then .ok (newNumberID n)
    else .error "id must be string, number, or null"
  | .str s => .ok (newStringID s)
  | _ => .error "id must be string, number, or null"

/-- transport_id.go: `id.MarshalJSON`.  `strconv.Atoi` (modelled by
`String.toInt?` plus the signed-64 range check of a 64-bit platform)
fails on a malformed or out-of-range numeric value. -/
def idMarshalJSON (v : id) : Except String Json :=
  match v.ty with
  | .number =>
    match v.value.toInt? with
    | some n =>
      if int64Min ≤ n ∧ n ≤ int64Max then .ok (.int n)
      else .error "invalid numeric id"
    | none => .error "invalid numeric id"
  | .string => .ok (.str v.value)
  | .null => .ok .null

/-- error.go reserved code constants. -/
def ErrorParse : Int := -32700
def ErrorInvalidRequest : Int := -32600
def ErrorMethodNotFound : Int := -32601
def ErrorInvalidParams : Int := -32602
def ErrorInternal : Int := -32603

/-- error.go: the `Error` object.  `data` carries `omitempty`. -/
structure Error where
  code : Int
  message : String
  data : Raw

/-- Marshal of `Error` (plain struct tags; `data` omitted when its
`RawMessage` has length zero). -/
def errorMarshalJSON (e : Error) : Json :=
  .obj ([("code", .int e.code), ("message", .str e.message)] ++
    (match e.data with
     | .val j => [("data", j)]
     | _ => []))

/-- Field-wise decode of an `Error` value under
`DisallowUnknownFields` (the decoder option applies to nested structs). -/
def decErrorFields (e : Error) (fs : List (String × Json)) : Except String Error :=
  match fs with
  | [] => .ok e
  | (k, v) :: rest =>
    if k = "code" then
      match v with
      | .null => decErrorFields e rest
      | .int n =>
        if int64Min ≤ n ∧ n ≤ int64Max then decErrorFields { e with code := n } rest
        else .error "cannot unmarshal number into int"
      | _ => .error "cannot unmarshal value into int"
    else if k = "message" then
      match v with
      | .null => decErrorFields e rest
      | .str s => decErrorFields { e with message := s } rest
      | _ => .error "cannot unmarshal value into string"
    else if k = "data" then decErrorFields { e with data := .val v } rest
    else .error ("json: unknown field " ++ k)

/-- Decode a JSON value into an `Error` (standard struct decoding, no
custom unmarshaler; null leaves the struct zeroed). -/
def errorUnmarshalJSON (j : Json) : Except String Error :=
  match j with
  | .obj fs => decErrorFields ⟨0, "", .nil⟩ fs
  | .null => .ok ⟨0, "", .nil⟩
  | _ => .error "cannot unmarshal value into Error"

/-- transport.go: `txRequest`. -/
structure txRequest where
  Notification : Bool
  ID : id
  Method : String
  Params : Raw

/-- The anonymous `plain` struct of `txRequest.UnmarshalJSON`, with Go
zero values. -/
structure PlainReq where
  Version : String
  Method : String
  Params : Raw
  ID : id

/-- Field-wise decode of the request `plain` struct under
`DisallowUnknownFields`; duplicate keys are last-wins and a JSON null
leaves a field untouched, as in `encoding/json`. -/
def decReqFields (p : PlainReq) (fs : List (String × Json)) : Except String PlainReq :=
  match fs with
  | [] => .ok p
  | (k, v) :: rest =>
    if k = "jsonrpc" then
      match v with
      | .null => decReqFields p rest
      | .str s => decReqFields { p with Version := s } rest
      | _ => .error "cannot unmarshal value into string"
    else if k = "method" then
      match v with
      | .null => decReqFields p rest
      | .str s => decReqFields { p with Method := s } rest
      | _ => .error "cannot unmarshal value into string"
    else if k = "params" then decReqFields { p with Params := .val v } rest
    else if k = "id" then
      match idUnmarshalJSON v with
      | .ok i => decReqFields { p with ID := i } rest
      | .error e => .error e
    else .error ("json: unknown field " ++ k)

/-- Decode one JSON value into the request `plain` struct (`id`
implements `json.Unmarshaler`, so its method runs even on null; a
top-level null leaves the struct zeroed). -/
def decodePlainReq (j : Json) : Except String PlainReq :=
  match j with
  | .obj fs => decReqFields ⟨"", "", .nil, newUndefinedID⟩ fs
  | .null => .ok ⟨"", "", .nil, newUndefinedID⟩
  | _ => .error "cannot unmarshal value into request"

/-- transport.go: `txRequest.UnmarshalJSON`. -/
def txRequestUnmarshalJSON (j : Json) : Except String txRequest := do
  let p ← decodePlainReq j
  if p.Version ≠ "2.0" then
    .error ("invalid jsonrpc version: " ++ p.Version)
  else
    .ok ⟨p.ID.IsUndefined, p.ID, p.Method, p.Params⟩

/-- transport.go: `txRequest.MarshalJSON`.  The notification arm emits
`jsonrpc`, `method`, `params`; the plain arm additionally emits `id`.
Neither `params` nor `id` carries `omitempty`, so a nil params slice is
emitted as JSON null and an undefined id (whose `ty` is the zero value
`idTypeNull`) is emitted as JSON null. -/
def txRequestMarshalJSON (r : txRequest) : Except String Json :=
  if r.Notification then do
    let pv ← rawFieldMarshal r.Params
    .ok (.obj [("jsonrpc", .str "2.0"), ("method", .str r.Method), ("params", pv)])
  else do
    let pv ← rawFieldMarshal r.Params
    let iv ← idMarshalJSON r.ID
    .ok (.obj [("jsonrpc", .str "2.0"), ("method", .str r.Method), ("params", pv),
      ("id", iv)])

/-- transport.go: `txResponse`. -/
structure txResponse where
  ID : id
  Result : Raw
  Error : Option Error

/-- The anonymous `plain` struct of `txResponse.UnmarshalJSON`. -/
structure PlainResp where
  Version : String
  Result : Raw
  Error : Option Error
  ID : id

/-- Field-wise decode of the response `plain` struct under
`DisallowUnknownFields`.  A JSON null for `error` leaves the `*Error`
pointer nil. -/
def decRespFields (p : PlainResp) (fs : List (String × Json)) : Except String PlainResp :=
  match fs with
  | [] => .ok p
  | (k, v) :: rest =>
    if k = "jsonrpc" then
      match v with
      | .null => decRespFields p rest
      | .str s => decRespFields { p with Version := s } rest
      | _ => .error "cannot unmarshal value into string"
    else if k = "result" then decRespFields { p with Result := .val v } rest
    else if k = "error" then
      match v with
      | .null => decRespFields p rest
      | _ =>
        match errorUnmarshalJSON v with
        | .ok e => decRespFields { p with Error := some e } rest
        | .error e => .error e
    else if k = "id" then
      match idUnmarshalJSON v with
      | .ok i => decRespFields { p with ID := i } rest
      | .error e => .error e
    else .error ("json: unknown field " ++ k)

/-- Decode one JSON value into the response `plain` struct. -/
def decodePlainResp (j : Json) : Except String PlainResp :=
  match j with
  | .obj fs => decRespFields ⟨"", .nil, none, newUndefinedID⟩ fs
  | .null => .ok ⟨"", .nil, none, newUndefinedID⟩
  | _ => .error "cannot unmarshal value into response"

/-- The validation tail of `txResponse.UnmarshalJSON`: version check,
then `len(p.Result) > 0 && p.Error != nil`, then
`p.Result == nil && p.Error == nil`. -/
def respValidate (p : PlainResp) : Except String txResponse :=
  if p.Version ≠ "2.0" then
    .error ("invalid jsonrpc version: " ++ p.Version)
  else if p.Result.isPos && p.Error.isSome then
    .error "only one of result and error may be set"
  else if p.Result.isNil && p.Error.isNone then
    .error "one of result or error must be set"
  else
    .ok ⟨p.ID, p.Result, p.Error⟩

/-- transport.go: `txResponse.UnmarshalJSON`. -/
def txResponseUnmarshalJSON (j : Json) : Except String txResponse := do
  respValidate (← decodePlainResp j)

/-- The `id` field of the response marshal arms: `p.ID = &r.ID` is set
to nil when the id is undefined, and the field carries `omitempty`, so
an undefined id omits the key entirely. -/
def respIdFields (v : id) : Except String (List (String × Json)) :=
  if v.IsUndefined then .ok []
  else do
    let iv ← idMarshalJSON v
    .ok [("id", iv)]

/-- transport.go: `txResponse.MarshalJSON`: the same two exclusivity
checks as the parse side, then one arm per result/error. -/
def txResponseMarshalJSON (r : txResponse) : Except String Json :=
  if r.Result.isPos && r.Error.isSome then
    .error "only one of result and error may be set"
  else if r.Result.isNil && r.Error.isNone then
    .error "one of result or error must be set"
  else
    match r.Error with
    | none => do
      let rv ← rawFieldMarshal r.Result
      let idf ← respIdFields r.ID
      .ok (.obj ([("jsonrpc", .str "2.0"), ("result", rv)] ++ idf))
    | some e => do
      let idf ← respIdFields r.ID
      .ok (.obj ([("jsonrpc", .str "2.0"), ("error", errorMarshalJSON e)] ++ idf))

/-- transport.go: `txObject`, either a request or a response. -/
structure txObject where
  Request : Option txRequest
  Response : Option txResponse

/-- transport.go: `txObject.UnmarshalJSON`: try the request shape, then
the response shape, else a combined error. -/
def txObjectUnmarshalJSON (j : Json) : Except String txObject :=
  match txRequestUnmarshalJSON j with
  | .ok req => .ok ⟨some req, none⟩
  | .error reqErr =>
    match txResponseUnmarshalJSON j with
    | .ok resp => .ok ⟨none, some resp⟩
    | .error respErr =>
      .error ("invalid json-rpc 2.0 message: " ++ reqErr ++ " for request and " ++
        respErr ++ " for response")

/-- transport.go: `txObject.MarshalJSON`. -/
def txObjectMarshalJSON (o : txObject) : Except String Json :=
  match o.Request, o.Response with
  | some _, some _ => .error "invalid object: only request or response may be set"
  | none, none => .error "invalid object: either request or response must be set"
  | some req, none => txRequestMarshalJSON req
  | none, some resp => txResponseMarshalJSON resp

/-- transport.go: `txMessage`, a frame: one object or a batch. -/
structure txMessage where
  Batched : Bool
  Objects : List txObject

/-- Decode of `[]*txObject` for the batch arm: an array decodes
element-wise (a null element reaches `txObject.UnmarshalJSON` and
fails); a JSON null leaves the slice nil and succeeds. -/
def decObjectList (js : List Json) : Except String (List txObject) :=
  match js with
  | [] => .ok []
  | j :: rest => do
    let o ← txObjectUnmarshalJSON j
    let os ← decObjectList rest
    .ok (o :: os)

/-- transport.go: `txMessage.UnmarshalJSON`: try the non-batched form
first, then fall back to a batch. -/
def txMessageUnmarshalJSON (j : Json) : Except String txMessage :=
  match txObjectUnmarshalJSON j with
  | .ok o => .ok ⟨false, [o]⟩
  | .error _ =>
    match j with
    | .arr js =>
      match decObjectList js with
      | .ok os => .ok ⟨true, os⟩
      | .error e => .error e
    | .null => .ok ⟨true, []⟩
    | _ => .error "cannot unmarshal value into message"

/-- Marshal of `[]*txObject` (element-wise). -/
def encObjectList (os : List txObject) : Except String (List Json) :=
  match os with
  | [] => .ok []
  | o :: rest => do
    let j ← txObjectMarshalJSON o
    let js ← encObjectList rest
    .ok (j :: js)

/-- transport.go: `txMessage.MarshalJSON`: batched emits the object
array; non-batched requires exactly one object and emits it directly. -/
def txMessageMarshalJSON (m : txMessage) : Except String Json :=
  if m.Batched then do
    let js ← encObjectList m.Objects
    .ok (.arr js)
  else
    match m.Objects with
    | [o] => txObjectMarshalJSON o
    | _ => .error "must be one object for a non-batched message"

/-!
Peer engine (the `Client` of error.go).  The `listeners` `sync.Map` is
modelled as an association list from the numeric message id to a
capacity-1 channel, itself modelled as `Option txObject` (empty or
holding one deposited object).  Handlers are modelled by the sequence of
writes they perform against the `ResponseWriter`.
-/

/-- A capacity-1 response channel. -/
abbrev Slot := Option txObject

/-- The `listeners` map. -/
abbrev Listeners := List (Int × Slot)

/-- `sync.Map.Load`. -/
def load (l : Listeners) (k : Int) : Option Slot :=
  match l with
  | [] => none
  | (k', s) :: rest => if k' = k then some s else load rest k

/-- `sync.Map.Store`. -/
def store (l : Listeners) (k : Int) (s : Slot) : Listeners :=
  match l with
  | [] => [(k, s)]
  | (k', s') :: rest => if k' = k then (k', s) :: rest else (k', s') :: store rest k s

/-- `sync.Map.Delete`. -/
def del (l : Listeners) (k : Int) : Listeners :=
  match l with
  | [] => []
  | (k', s') :: rest => if k' = k then del rest k else (k', s') :: del rest k

/-- The key set of the listeners map. -/
def listKeys (l : Listeners) : List Int := l.map Prod.fst

/-- error.go: `convertID`: `strconv.ParseInt(value, 10, 64)` with the
error ignored, which yields 0 on a syntax error and the clamped bound on
a range error. -/
def convertID (v : id) : Int :=
  match v.value.toInt? with
  | some n => if n < int64Min then int64Min else if n > int64Max then int64Max else n
  | none => 0

/-- One write a handler attempts against its `ResponseWriter`
(`WriteMessage` carries the already-marshalled body). -/
inductive HandlerAction where
  | writeMessage (j : Json)
  | writeError (code : Int) (message : String)

/-- error.go: the `responseWriter` bound to one request. -/
structure WriterState where
  notification : Bool
  resp : txResponse
  set : Bool

/-- error.go: `responseWriter.WriteMessage`.  Returns the new writer
state and the error value the call returned to the handler. -/
def writeMessage (w : WriterState) (j : Json) : WriterState × Option String :=
  if w.notification then (w, some "cannot write message for notification")
  else if w.set then (w, some "response already set")
  else ({ w with set := true, resp := { w.resp with Result := .val j } }, none)

/-- error.go: `responseWriter.WriteError`. -/
def writeError (w : WriterState) (code : Int) (message : String) :
    WriterState × Option String :=
  if w.notification then (w, some "cannot write message for notification")
  else if w.set then (w, some "response already set")
  else ({ w with set := true, resp := { w.resp with Error := some ⟨code, message, .nil⟩ } },
    none)

/-- Run a handler's writes in order, collecting each call's returned
error. -/
def runHandler (actions : List HandlerAction) (w : WriterState) :
    WriterState × List (Option String) :=
  match actions with
  | [] => (w, [])
  | a :: rest =>
    let (w', r) :=
      match a with
      | .writeMessage j => writeMessage w j
      | .writeError c m => writeError w c m
    let (w'', rs) := runHandler rest w'
    (w'', r :: rs)

/-- error.go: `Client.handleRequest`.  The writer starts from a response
that echoes the request id; if the handler wrote no result, `Result` is
set to the non-nil empty slice; the function never returns nil (the
`Option` mirrors the `*txResponse` return type checked by the caller's
`if r != nil`). -/
def handleRequest (handler : List HandlerAction) (req : txRequest) : Option txResponse :=
  let w0 : WriterState := ⟨req.Notification, ⟨req.ID, .nil, none⟩, false⟩
  let w := (runHandler handler w0).1
  let resp := if w.resp.Result.isNil then { w.resp with Result := .empty } else w.resp
  some resp

/-- transport.go: `transport.SendError`, as called from the
demultiplexer with a nil id: the response's id is the zero value,
i.e. undefined. -/
def sendErrorFrame (i : id) (e : Error) : txMessage :=
  ⟨false, [⟨none, some ⟨i, .nil, some e⟩⟩]⟩

/-- The classification of one `transport.ReadMessage` call: a parsed
frame, a recoverable parse error, or a terminal error. -/
inductive ReadResult where
  | msg (m : txMessage)
  | recoverable (errText : String)
  | terminal (errText : String)

/-- The decode outcome underlying `transport.ReadMessage`. -/
inductive DecodeErr where
  | synError (s : String)
  | typeError (s : String)
  | otherError (s : String)

/-- transport.go: `transport.ReadMessage` error classification: only
`*json.SyntaxError` and `*json.UnmarshalTypeError` are wrapped into the
recoverable `transportError`; everything else stays terminal. -/
def readMessage (r : Except DecodeErr txMessage) : ReadResult :=
  match r with
  | .ok m => .msg m
  | .error (.synError s) => .recoverable s
  | .error (.typeError s) => .recoverable s
  | .error (.otherError s) => .terminal s

/-- Accumulator of the demultiplexer's per-object loop. -/
structure LoopState where
  listeners : Listeners
  out : List txObject
  warnings : List String

/-- error.go: the body of the `Objects:` loop of
`Client.processMessages`: a request is dispatched to the handler and its
(always non-nil) response collected; a response with a nil id is
discarded with a warning; otherwise the listener slot is looked up and
the object deposited, dropping it with a warning when the listener is
missing or its buffered channel is already full (the 500 ms bounded
send). -/
def processObject (handler : List HandlerAction) (st : LoopState) (o : txObject) :
    LoopState :=
  match o.Request with
  | some req =>
    match handleRequest handler req with
    | some r => { st with out := st.out ++ [⟨none, some r⟩] }
    | none => st
  | none =>
    match o.Response with
    | some resp =>
      if resp.ID.IsUndefined || resp.ID.IsNull then
        { st with warnings := st.warnings ++ ["received error message"] }
      else
        match load st.listeners (convertID resp.ID) with
        | none =>
          { st with warnings := st.warnings ++ ["missing listener for message response"] }
        | some none =>
          { st with listeners := store st.listeners (convertID resp.ID) (some o) }
        | some (some _) =>
          { st with warnings := st.warnings ++ ["unresponsive listener"] }
    | none => st

/-- The observable outcome of one iteration of
`Client.processMessages`. -/
structure DemuxOutcome where
  listeners : Listeners
  sentFrames : List txMessage
  continues : Bool
  closedTransport : Bool
  warnings : List String

/-- error.go: one iteration of `Client.processMessages`.  A recoverable
read error answers with a `-32600` error response (send result ignored)
and continues; a terminal read error closes the client and exits (the
deferred `close(c.done)` then fires); a parsed frame dispatches each
object, and a non-empty outgoing object list is sent as one frame whose
`Batched` flag copies the incoming frame's, exiting the loop if that
send fails (`writeOk` models the transport write; a marshal failure of
the outgoing frame also fails the send before any bytes are written). -/
def processOneMessage (handler : List HandlerAction) (l : Listeners) (r : ReadResult)
    (writeOk : Bool) : DemuxOutcome :=
  match r with
  | .recoverable s =>
    { listeners := l,
      sentFrames := [sendErrorFrame newUndefinedID ⟨ErrorInvalidRequest, s, .nil⟩],
      continues := true, closedTransport := false, warnings := [] }
  | .terminal s =>
    { listeners := l, sentFrames := [], continues := false, closedTransport := true,
      warnings := ["closing client: " ++ s] }
  | .msg m =>
    let st := m.Objects.foldl (processObject handler) ⟨l, [], []⟩
    if st.out.length > 0 then
      let frame : txMessage := ⟨m.Batched, st.out⟩
      let sendOk := (txMessageMarshalJSON frame).isOk && writeOk
      { listeners := st.listeners, sentFrames := [frame], continues := sendOk,
        closedTransport := false,
        warnings := st.warnings ++ if sendOk then [] else ["error sending message"] }
    else
      { listeners := st.listeners, sentFrames := [], continues := true,
        closedTransport := false, warnings := st.warnings }

/-- Whether the deferred `close(c.done)` fires after this iteration,
i.e. whether `processMessages` returns. -/
def doneFires (o : DemuxOutcome) : Bool := !o.continues

/-- The environment one `Client.Invoke` call observes after registering
its listener: the send fails, the context is cancelled first, or an
object is deposited into its channel. -/
inductive InvokeEnv where
  | sendFail
  | ctxCancelled
  | resp (o : txObject)

/-- The error arm of an `Invoke` return value. -/
inductive InvokeErr where
  | sendErr
  | ctxErr
  | noBody
  | rpc (e : Error)

/-- error.go: `Client.Invoke` after the body has been marshalled: store
the fresh listener entry, send, then select on the context and the
channel; the deferred `c.listeners.Delete(msgID)` runs on every exit
path.  Returns the call's result and the final listeners map. -/
def invokeRun (l : Listeners) (k : Int) (env : InvokeEnv) :
    Except InvokeErr Raw × Listeners :=
  let l1 := store l k none
  match env with
  | .sendFail => (.error .sendErr, del l1 k)
  | .ctxCancelled => (.error .ctxErr, del l1 k)
  | .resp o =>
    let res : Except InvokeErr Raw :=
      match o.Response with
      | none => .error .noBody
      | some resp =>
        match resp.Error with
        | some e => .error (.rpc e)
        | none => .ok resp.Result
    (res, del l1 k)

/-- error.go: the blocking `select` of `Client.Invoke`: it resumes only
when the context is done or its channel holds an object; `none` means
the call stays blocked. -/
def invokeAwait (ctxDone : Bool) (slot : Slot) : Option (Except InvokeErr Raw) :=
  if ctxDone then some (.error .ctxErr)
  else
    match slot with
    | some o =>
      some (match o.Response with
        | none => .error .noBody
        | some resp =>
          match resp.Error with
          | some e => .error (.rpc e)
          | none => .ok resp.Result)
    | none => none

/-- What one batched call's wait observes during `Batch.Commit`: the
context cancelled first, or the deposited object. -/
inductive BatchWait where
  | ctxDone
  | resp (o : txObject)

/-- `Batch.Commit`'s result: the returned error (if any) plus the final
listeners map, or the nil-pointer dereference the code reaches when a
deposited object has no `Response`. -/
inductive CommitResult where
  | panicked
  | ret (firstError : Option InvokeErr) (listeners : Listeners)

/-- The `Range` body of `Batch.Commit`, iterated over the watcher
entries in order.  Both deferred deletes run when the closure returns,
including the `return false` arm that stops the iteration; the
`if firstError != nil` guards are transcribed exactly as written, so an
error is only ever *overwritten*, never first recorded; a deposited
object whose `Response` is non-nil returns early before any result is
delivered, and one whose `Response` is nil reaches
`resp.Response.Error`, a nil dereference. -/
def commitRange (ws : List (Int × BatchWait)) (fe : Option InvokeErr) (l : Listeners) :
    CommitResult :=
  match ws with
  | [] => .ret fe l
  | (k, w) :: rest =>
    let l1 := del l k
    match load l k with
    | none => .ret fe l1
    | some _ =>
      match w with
      | .ctxDone =>
        let fe1 := if fe.isSome then some InvokeErr.ctxErr else fe
        commitRange rest fe1 l1
      | .resp o =>
        match o.Response with
        | some _ =>
          let fe1 := if fe.isSome then some InvokeErr.noBody else fe
          commitRange rest fe1 l1
        | none => .panicked

/-- error.go: `Batch.Commit`: set `Batched`, send the frame (returning
the transport error without touching any registered entry when the send
fails), then range over the watchers. -/
def commitRun (sendOk : Bool) (ws : List (Int × BatchWait)) (l : Listeners) :
    CommitResult :=
  if sendOk then commitRange ws none l
  else .ret (some .sendErr) l

/-- A well-formed id value, as produced by the four constructors: it is
defined, a numeric id stores the decimal rendering of an in-range
signed-64 integer, and a null id stores the empty string. -/
def wfId (v : id) : Prop :=
  v.defined = true ∧
  (v.ty = .number → ∃ n : Int, int64Min ≤ n ∧ n ≤ int64Max ∧ v.value = toString n ∧
    v.value.toInt? = some n) ∧
  (v.ty = .null → v.value = "")

/-- An id whose `MarshalJSON` cannot fail: a numeric id must carry an
in-range decimal value (the other kinds always marshal). -/
def marshalableId (v : id) : Prop :=
  v.ty = .number → ∃ n : Int, int64Min ≤ n ∧ n ≤ int64Max ∧ v.value.toInt? = some n

/-!  Theorems checking the specification's claims. -/

/-- Claim C1: the spec requires that a received notification (undefined
id) never produces a response object and that an inbound frame of only
notifications causes nothing to be sent back.  The code violates this:
`Client.handleRequest` returns a (never nil) response for every request,
notifications included, so the demultiplexer collects a response object
for the notification — with an undefined id and the non-nil empty
`Result` slice — and hands the frame to `SendMessage`; marshalling that
frame fails on the empty `json.RawMessage`, and the demultiplexer then
exits, closing the client.  The handler-side refusal
("cannot write message for notification") works, but does not stop the
engine from producing the response. -/
theorem claim_C1_notification_produces_response :
    handleRequest [] ⟨true, newUndefinedID, "log", .val (.arr [.str "hi"])⟩ =
      some ⟨newUndefinedID, .empty, none⟩ ∧
    (runHandler [.writeError ErrorInternal "oops"]
      ⟨true, ⟨newUndefinedID, .nil, none⟩, false⟩).2 =
      [some "cannot write message for notification"] ∧
    (processOneMessage [] [] (.msg ⟨false, [⟨some ⟨true, newUndefinedID, "log",
      .val (.arr [.str "hi"])⟩, none⟩]⟩) true).sentFrames =
      [⟨false, [⟨none, some ⟨newUndefinedID, .empty, none⟩⟩]⟩] ∧
    (processOneMessage [.writeError ErrorInternal "oops"] []
      (.msg ⟨false, [⟨some ⟨true, newUndefinedID, "log",
      .val (.arr [.str "hi"])⟩, none⟩]⟩) true).sentFrames =
      [⟨false, [⟨none, some ⟨newUndefinedID, .empty, none⟩⟩]⟩] ∧
    (processOneMessage [] [] (.msg ⟨false, [⟨some ⟨true, newUndefinedID, "log",
      .val (.arr [.str "hi"])⟩, none⟩]⟩) true).continues = false ∧
    txMessageMarshalJSON ⟨false, [⟨none, some ⟨newUndefinedID, .empty, none⟩⟩]⟩ =
      .error "unexpected end of JSON input" :=
  ⟨rfl, rfl, rfl, rfl, rfl, rfl⟩

/-- Claim C2: the spec says `Batch.Commit` returns the first error among
the awaited responses and returns nil only when every response is a
success.  The code cannot do this: every assignment to `firstError` in
`Commit` is guarded by `if firstError != nil`, so an error is never
first recorded, and the `if resp.Response != nil` test short-circuits
every deposited response before its `Error` is even examined.  At a
batch whose single invoke is answered by an error response (code
-32603), and likewise when the context is cancelled while waiting,
`Commit` returns nil. -/
theorem claim_C2_commit_swallows_errors :
    commitRun true [(1, .resp ⟨none, some ⟨newNumberID 1, .nil,
        some ⟨ErrorInternal, "boom", .nil⟩⟩⟩)]
      [(1, some ⟨none, some ⟨newNumberID 1, .nil, some ⟨ErrorInternal, "boom", .nil⟩⟩⟩)] =
      .ret none [] ∧
    commitRun true [(1, .ctxDone)] [(1, none)] = .ret none [] :=
  ⟨rfl, rfl⟩

/-- Claim C3 counterexample: on a terminal read error the demultiplexer
does close the transport and exit (so `done` fires), but it leaves the
listeners map untouched — the pending caller's slot at id 1 is still
empty — and `Client.Invoke`'s select resumes only on its own context or
on a deposit, so with an uncancelled context and an empty slot the call
stays blocked instead of resolving with an aborted error. -/
theorem claim_C3_counterexample :
    (processOneMessage [] [(1, none)] (.terminal "read tcp: connection reset") true).continues
      = false ∧
    (processOneMessage [] [(1, none)] (.terminal "read tcp: connection reset") true).closedTransport
      = true ∧
    (processOneMessage [] [(1, none)] (.terminal "read tcp: connection reset") true).listeners
      = [(1, none)] ∧
    invokeAwait false none = none :=
  ⟨rfl, rfl, rfl, rfl⟩

/-- Claim C3 (amended): when the transport read returns a terminal
error, the demultiplexer closes the peer, sends nothing, exits (so the
done signal fires) and leaves every registered listener slot untouched;
an invoke still awaiting a response is not woken by this — its select
resumes only on its own context or on a deposited object, so it blocks
until its own context is cancelled. -/
theorem claim_C3_terminal_closes_without_waking_invokes
    (h : List HandlerAction) (l : Listeners) (s : String) (w : Bool) :
    (processOneMessage h l (.terminal s) w).continues = false ∧
    (processOneMessage h l (.terminal s) w).closedTransport = true ∧
    (processOneMessage h l (.terminal s) w).listeners = l ∧
    (processOneMessage h l (.terminal s) w).sentFrames = [] ∧
    doneFires (processOneMessage h l (.terminal s) w) = true ∧
    invokeAwait false none = none :=
  ⟨rfl, rfl, rfl, rfl, rfl, rfl⟩

/-- Claim C4 counterexample: `txMessage.UnmarshalJSON` does not reject
the empty JSON array: the non-batched attempt fails, but the batch
fallback `json.Unmarshal` into `[]*txObject` succeeds on `[]` with an
empty slice, so the parse yields a valid (batched, zero-object)
message instead of an error. -/
theorem claim_C4_counterexample :
    (txMessageUnmarshalJSON (.arr [])).isOk = true :=
  rfl

/-- Claim C4 (amended): parsing the frame `[]` succeeds: the
single-object attempt fails with an error, and the batch fallback
yields a batched message with zero objects. -/
theorem claim_C4_empty_batch_parses :
    (∃ e, txObjectUnmarshalJSON (.arr []) = .error e) ∧
    txMessageUnmarshalJSON (.arr []) = .ok ⟨true, []⟩ :=
  ⟨⟨_, rfl⟩, rfl⟩

/-- Claim C5 counterexample: on a recoverable parse error the code does
send a single error response with code -32600 carrying the parse text
and continues — but the response's id is the zero value, which is
*undefined*, and `txResponse.MarshalJSON` omits an undefined id
entirely, so the frame on the wire has no `id` key at all rather than
`"id":null` as the claim states. -/
theorem claim_C5_counterexample :
    (processOneMessage [] [] (.recoverable "unexpected end of JSON input") true).sentFrames =
      [sendErrorFrame newUndefinedID ⟨ErrorInvalidRequest, "unexpected end of JSON input", .nil⟩] ∧
    txMessageMarshalJSON
      (sendErrorFrame newUndefinedID ⟨ErrorInvalidRequest, "unexpected end of JSON input", .nil⟩) =
      .ok (.obj [("jsonrpc", .str "2.0"),
        ("error", .obj [("code", .int (-32600)),
          ("message", .str "unexpected end of JSON input")])]) ∧
    (Json.obj [("jsonrpc", .str "2.0"),
      ("error", .obj [("code", .int (-32600)),
        ("message", .str "unexpected end of JSON input")])]).hasKey "id" = false ∧
    (newUndefinedID).IsUndefined = true :=
  ⟨rfl, rfl, rfl, rfl⟩

/-- Claim C5 (amended): whenever the transport read yields a recoverable
parse error (a JSON syntax error or type mismatch, which
`transport.ReadMessage` wraps in `transportError`), the demultiplexer
sends a single error response with code -32600 and the parse error text
as the message, leaves the listeners untouched and continues the read
loop; the response's id is undefined, so the emitted frame omits the
`id` key. -/
theorem claim_C5_recoverable_sends_error_and_continues
    (h : List HandlerAction) (l : Listeners) (s : String) (w : Bool) :
    readMessage (.error (.synError s)) = .recoverable s ∧
    readMessage (.error (.typeError s)) = .recoverable s ∧
    (processOneMessage h l (.recoverable s) w).sentFrames =
      [sendErrorFrame newUndefinedID ⟨ErrorInvalidRequest, s, .nil⟩] ∧
    (processOneMessage h l (.recoverable s) w).continues = true ∧
    (processOneMessage h l (.recoverable s) w).listeners = l ∧
    ErrorInvalidRequest = -32600 ∧
    txMessageMarshalJSON (sendErrorFrame newUndefinedID ⟨ErrorInvalidRequest, s, .nil⟩) =
      .ok (.obj [("jsonrpc", .str "2.0"),
        ("error", .obj [("code", .int (-32600)), ("message", .str s)])]) :=
  ⟨rfl, rfl, rfl, rfl, rfl, rfl, rfl⟩

/-- Computation of the notification arm of `txRequest.MarshalJSON`. -/
theorem txReqMar_notif (vid : id) (m : String) (params : Raw) (pv : Json)
    (hp : rawFieldMarshal params = .ok pv) :
    txRequestMarshalJSON ⟨true, vid, m, params⟩ =
      .ok (.obj [("jsonrpc", .str "2.0"), ("method", .str m), ("params", pv)]) := by
  unfold txRequestMarshalJSON
  rw [hp]
  rfl

/-- Computation of the plain arm of `txRequest.MarshalJSON`. -/
theorem txReqMar_plain (vid : id) (m : String) (params : Raw) (pv iv : Json)
    (hp : rawFieldMarshal params = .ok pv) (hiv : idMarshalJSON vid = .ok iv) :
    txRequestMarshalJSON ⟨false, vid, m, params⟩ =
      .ok (.obj [("jsonrpc", .str "2.0"), ("method", .str m), ("params", pv), ("id", iv)]) := by
  unfold txRequestMarshalJSON
  rw [hp, hiv]
  rfl

/-- The plain arm of `txRequest.MarshalJSON` fails when the id fails to
marshal. -/
theorem txReqMar_plain_fail (vid : id) (m : String) (params : Raw) (pv : Json) (e : String)
    (hp : rawFieldMarshal params = .ok pv) (hiv : idMarshalJSON vid = .error e) :
    txRequestMarshalJSON ⟨false, vid, m, params⟩ = .error e := by
  unfold txRequestMarshalJSON
  rw [hp, hiv]
  rfl

/-- Claim C6 counterexample: `txRequest.MarshalJSON` emits the `params`
key even when the request's params slice is nil (empty): the field has
no `omitempty`, so a nil `json.RawMessage` is emitted as `"params":null`
— the claim's "only when params is non-empty" is false. -/
theorem claim_C6_counterexample :
    txRequestMarshalJSON ⟨true, newUndefinedID, "hello", .nil⟩ =
      .ok (.obj [("jsonrpc", .str "2.0"), ("method", .str "hello"), ("params", .null)]) ∧
    (Json.obj [("jsonrpc", .str "2.0"), ("method", .str "hello"),
      ("params", .null)]).hasKey "params" = true ∧
    Raw.nil.isPos = false :=
  ⟨rfl, rfl, rfl⟩

/-- Claim C6 (amended): every successful `txRequest.MarshalJSON` emits
`"jsonrpc":"2.0"` and `method`; it emits the `params` key always (as
JSON null when params is nil); it emits the `id` key iff the request is
not a notification; and a non-notification whose id is the undefined
zero value emits `"id":null`. -/
theorem claim_C6_request_marshal_shape (r : txRequest) (j : Json)
    (h : txRequestMarshalJSON r = .ok j) :
    j.getKey "jsonrpc" = some (.str "2.0") ∧
    j.getKey "method" = some (.str r.Method) ∧
    j.hasKey "params" = true ∧
    (j.hasKey "id" = true ↔ r.Notification = false) ∧
    (r.Notification = false → r.ID = newUndefinedID → j.getKey "id" = some .null) ∧
    (r.Params = .nil → j.getKey "params" = some .null) := by
  obtain ⟨notif, vid, m, params⟩ := r
  have hempty : params = Raw.empty → False := by
    intro hc
    subst hc
    cases notif <;> exact Except.noConfusion h
  obtain ⟨pv, hp, hpv⟩ : ∃ pv, rawFieldMarshal params = .ok pv ∧
      (params = Raw.nil → pv = .null) := by
    cases params with
    | nil => exact ⟨.null, rfl, fun _ => rfl⟩
    | empty => exact absurd rfl hempty
    | val v => exact ⟨v, rfl, fun hc => nomatch hc⟩
  cases notif with
  | true =>
    rw [txReqMar_notif vid m params pv hp] at h
    injection h with h
    subst h
    refine ⟨rfl, rfl, rfl, by simp [Json.hasKey], ?_, ?_⟩
    · intro hc
      exact absurd hc (by simp)
    · intro hc
      rw [hpv hc]
      rfl
  | false =>
    obtain ⟨iv, hiv⟩ : ∃ iv, idMarshalJSON vid = .ok iv := by
      cases hiv' : idMarshalJSON vid with
      | ok iv => exact ⟨iv, rfl⟩
      | error e =>
        rw [txReqMar_plain_fail vid m params pv e hp hiv'] at h
        exact Except.noConfusion h
    rw [txReqMar_plain vid m params pv iv hp hiv] at h
    injection h with h
    subst h
    refine ⟨rfl, rfl, rfl, by simp [Json.hasKey], ?_, ?_⟩
    · intro _ hid
      subst hid
      rw [show idMarshalJSON newUndefinedID = .ok .null from rfl] at hiv
      injection hiv with hiv
      subst hiv
      rfl
    · intro hc
      rw [hpv hc]
      rfl

/-- Claim C6 witness: the amended statement applied to the request with
an undefined id and nil params. -/
theorem claim_C6_witness :
    (Json.obj [("jsonrpc", Json.str "2.0"), ("method", Json.str "m"), ("params", Json.null),
      ("id", Json.null)]).getKey "jsonrpc" = some (.str "2.0") ∧
    (Json.obj [("jsonrpc", Json.str "2.0"), ("method", Json.str "m"), ("params", Json.null),
      ("id", Json.null)]).getKey "method" =
      some (.str (txRequest.mk false newUndefinedID "m" .nil).Method) ∧
    (Json.obj [("jsonrpc", Json.str "2.0"), ("method", Json.str "m"), ("params", Json.null),
      ("id", Json.null)]).hasKey "params" = true ∧
    ((Json.obj [("jsonrpc", Json.str "2.0"), ("method", Json.str "m"), ("params", Json.null),
      ("id", Json.null)]).hasKey "id" = true ↔
      (txRequest.mk false newUndefinedID "m" .nil).Notification = false) ∧
    ((txRequest.mk false newUndefinedID "m" .nil).Notification = false →
      (txRequest.mk false newUndefinedID "m" .nil).ID = newUndefinedID →
      (Json.obj [("jsonrpc", Json.str "2.0"), ("method", Json.str "m"), ("params", Json.null),
        ("id", Json.null)]).getKey "id" = some .null) ∧
    ((txRequest.mk false newUndefinedID "m" .nil).Params = .nil →
      (Json.obj [("jsonrpc", Json.str "2.0"), ("method", Json.str "m"), ("params", Json.null),
        ("id", Json.null)]).getKey "params" = some .null) :=
  claim_C6_request_marshal_shape ⟨false, newUndefinedID, "m", .nil⟩ _ rfl

/-- Computation of `txRequest.UnmarshalJSON` on the four-field object a
plain marshal emits. -/
theorem txReqUnmar_plain (m : String) (v : Json) (idj : Json) (vid : id)
    (hiu : idUnmarshalJSON idj = .ok vid) :
    txRequestUnmarshalJSON (.obj [("jsonrpc", .str "2.0"), ("method", .str m),
      ("params", v), ("id", idj)]) = .ok ⟨vid.IsUndefined, vid, m, .val v⟩ := by
  have step : decodePlainReq (.obj [("jsonrpc", .str "2.0"), ("method", .str m),
      ("params", v), ("id", idj)]) =
      (match idUnmarshalJSON idj with
       | .ok i => .ok (⟨"2.0", m, .val v, i⟩ : PlainReq)
       | .error e => .error e) := rfl
  rw [hiu] at step
  unfold txRequestUnmarshalJSON
  rw [step]
  rfl

/-- Computation of `txRequest.UnmarshalJSON` on the three-field object a
notification marshal emits: the absent id field leaves the id undefined
and sets the Notification flag. -/
theorem txReqUnmar_notif (m : String) (v : Json) :
    txRequestUnmarshalJSON (.obj [("jsonrpc", .str "2.0"), ("method", .str m),
      ("params", v)]) = .ok ⟨true, newUndefinedID, m, .val v⟩ := rfl

/-- Claim C7 counterexample: for the request with a defined (null) id
and a *nil* params slice, `parse(marshal(r))` is not `r`: the marshal
emits `"params":null` (no `omitempty`), and the parse stores the null
back as the literal raw bytes `null`, a non-nil slice. -/
theorem claim_C7_counterexample :
    txRequestMarshalJSON ⟨false, newNullID, "m", .nil⟩ =
      .ok (.obj [("jsonrpc", .str "2.0"), ("method", .str "m"), ("params", .null),
        ("id", .null)]) ∧
    txRequestUnmarshalJSON (.obj [("jsonrpc", .str "2.0"), ("method", .str "m"),
      ("params", .null), ("id", .null)]) =
      .ok ⟨false, newNullID, "m", .val .null⟩ ∧
    (txRequest.mk false newNullID "m" (.val .null)) ≠ ⟨false, newNullID, "m", .nil⟩ := by
  refine ⟨rfl, rfl, ?_⟩
  intro hc
  injection hc with h1 h2 h3 h4
  exact Raw.noConfusion h4

/-- Claim C7 (amended): for every request with `Notification = false`, a
well-formed defined id and a params slice holding a JSON value,
`parse(marshal(r)) = r` and the emitted object carries
`"jsonrpc":"2.0"` and an `id` key; for every notification, a successful
marshal emits no `id` key and parsing it back yields
`Notification = true`. -/
theorem claim_C7_roundtrip :
    (∀ (r : txRequest) (v : Json), r.Notification = false → wfId r.ID → r.Params = .val v →
      ∃ j, txRequestMarshalJSON r = .ok j ∧ txRequestUnmarshalJSON j = .ok r ∧
        j.getKey "jsonrpc" = some (.str "2.0") ∧ j.hasKey "id" = true) ∧
    (∀ (r : txRequest) (j : Json), r.Notification = true → txRequestMarshalJSON r = .ok j →
      j.hasKey "id" = false ∧
        ∃ r2, txRequestUnmarshalJSON j = .ok r2 ∧ r2.Notification = true) := by
  constructor
  · intro r v hn hw hp
    obtain ⟨notif, vid, m, params⟩ := r
    simp only at hn hp hw
    subst hn
    subst hp
    obtain ⟨hd, hnum, hnull⟩ := hw
    have hund : vid.IsUndefined = false := by
      simp [id.IsUndefined, hd]
    obtain ⟨idj, hm, hu⟩ : ∃ idj, idMarshalJSON vid = .ok idj ∧
        idUnmarshalJSON idj = .ok vid := by
      obtain ⟨vval, vty, vdef⟩ := vid
      simp only at hd hnum hnull
      subst hd
      cases vty with
      | null =>
        have hv := hnull rfl
        simp only at hv
        subst hv
        exact ⟨.null, rfl, rfl⟩
      | string => exact ⟨.str vval, rfl, rfl⟩
      | number =>
        obtain ⟨n, h1, h2, h3, h4⟩ := hnum rfl
        refine ⟨.int n, ?_, ?_⟩
        · unfold idMarshalJSON
          rw [h4]
          simp only [if_pos (And.intro h1 h2)]
        · show (if int64Min ≤ n ∧ n ≤ int64Max then Except.ok (newNumberID n)
            else Except.error "id must be string, number, or null") =
            Except.ok (⟨vval, idType.number, true⟩ : id)
          rw [if_pos (And.intro h1 h2)]
          subst h3
          rfl
    refine ⟨.obj [("jsonrpc", .str "2.0"), ("method", .str m), ("params", v), ("id", idj)],
      txReqMar_plain vid m (.val v) v idj rfl hm, ?_, rfl, rfl⟩
    rw [txReqUnmar_plain m v idj vid hu, hund]
  · intro r j hn h
    obtain ⟨notif, vid, m, params⟩ := r
    simp only at hn
    subst hn
    have hempty : params = Raw.empty → False := by
      intro hc
      subst hc
      exact Except.noConfusion h
    obtain ⟨pv, hp⟩ : ∃ pv, rawFieldMarshal params = .ok pv := by
      cases params with
      | nil => exact ⟨.null, rfl⟩
      | empty => exact absurd rfl hempty
      | val v => exact ⟨v, rfl⟩
    rw [txReqMar_notif vid m params pv hp] at h
    injection h with h
    subst h
    exact ⟨rfl, ⟨true, newUndefinedID, m, .val pv⟩, txReqUnmar_notif m pv, rfl⟩

/-- Claim C7 witness: the amended round trip applied to a request with a
string id, and the notification clause applied to a concrete
notification. -/
theorem claim_C7_witness :
    (∃ j, txRequestMarshalJSON ⟨false, newStringID "a", "m", .val .null⟩ = .ok j ∧
      txRequestUnmarshalJSON j = .ok ⟨false, newStringID "a", "m", .val .null⟩ ∧
      j.getKey "jsonrpc" = some (.str "2.0") ∧ j.hasKey "id" = true) ∧
    ((Json.obj [("jsonrpc", .str "2.0"), ("method", .str "n"),
      ("params", .null)]).hasKey "id" = false ∧
      ∃ r2, txRequestUnmarshalJSON (.obj [("jsonrpc", .str "2.0"), ("method", .str "n"),
        ("params", .null)]) = .ok r2 ∧ r2.Notification = true) :=
  ⟨claim_C7_roundtrip.1 ⟨false, newStringID "a", "m", .val .null⟩ .null rfl
      ⟨rfl, fun hc => absurd hc (by decide), fun hc => absurd hc (by decide)⟩ rfl,
    claim_C7_roundtrip.2 ⟨true, newUndefinedID, "n", .nil⟩ _ rfl rfl⟩

/-- An id satisfying `marshalableId` has a successful `respIdFields`. -/
theorem respIdFields_ok (v : id) (hm : marshalableId v) :
    ∃ fs, respIdFields v = .ok fs := by
  unfold respIdFields
  by_cases hu : v.IsUndefined = true
  · rw [if_pos hu]
    exact ⟨[], rfl⟩
  · rw [if_neg hu]
    obtain ⟨iv, hiv⟩ : ∃ iv, idMarshalJSON v = .ok iv := by
      cases hty : v.ty with
      | null => exact ⟨.null, by unfold idMarshalJSON; rw [hty]⟩
      | string => exact ⟨.str v.value, by unfold idMarshalJSON; rw [hty]⟩
      | number =>
        obtain ⟨n, h1, h2, h4⟩ := hm hty
        refine ⟨.int n, ?_⟩
        unfold idMarshalJSON
        rw [hty, h4]
        show (if int64Min ≤ n ∧ n ≤ int64Max then Except.ok (Json.int n)
          else Except.error "invalid numeric id") = Except.ok (Json.int n)
        rw [if_pos (And.intro h1 h2)]
    rw [hiv]
    exact ⟨[("id", iv)], rfl⟩

/-- Claim C8: response parse and response marshal enforce result-XOR-
error.  Parse-side (over the decoded `plain` struct): both present is
rejected, neither present is rejected, and exactly one (with the right
version) succeeds.  Marshal-side: both set is rejected, neither set
fails (the nil slice through the explicit check, the non-nil empty slice
through the failing empty-`RawMessage` marshal), and exactly one set
(with a marshalable id) succeeds. -/
theorem claim_C8_result_error_exclusive :
    (∀ (j : Json) (p : PlainResp), decodePlainResp j = .ok p →
      p.Result.isPos = true → p.Error.isSome = true →
      (txResponseUnmarshalJSON j).isOk = false) ∧
    (∀ (j : Json) (p : PlainResp), decodePlainResp j = .ok p →
      p.Result = .nil → p.Error = none →
      (txResponseUnmarshalJSON j).isOk = false) ∧
    (∀ (j : Json) (p : PlainResp), decodePlainResp j = .ok p → p.Version = "2.0" →
      (((∃ v, p.Result = .val v) ∧ p.Error = none) ∨
        (p.Result = .nil ∧ ∃ e, p.Error = some e)) →
      (txResponseUnmarshalJSON j).isOk = true) ∧
    (∀ r : txResponse, r.Result.isPos = true → r.Error.isSome = true →
      (txResponseMarshalJSON r).isOk = false) ∧
    (∀ r : txResponse, r.Result.isPos = false → r.Error = none →
      (txResponseMarshalJSON r).isOk = false) ∧
    (∀ r : txResponse, marshalableId r.ID →
      (((∃ v, r.Result = .val v) ∧ r.Error = none) ∨
        (r.Result.isPos = false ∧ ∃ e, r.Error = some e)) →
      (txResponseMarshalJSON r).isOk = true) := by
  refine ⟨?_, ?_, ?_, ?_, ?_, ?_⟩
  · intro j p h h1 h2
    have hv : txResponseUnmarshalJSON j = respValidate p := by
      unfold txResponseUnmarshalJSON
      rw [h]
      rfl
    rw [hv]
    unfold respValidate
    by_cases hver : p.Version ≠ "2.0"
    · rw [if_pos hver]
      rfl
    · rw [if_neg hver, h1, h2]
      rfl
  · intro j p h h1 h2
    have hv : txResponseUnmarshalJSON j = respValidate p := by
      unfold txResponseUnmarshalJSON
      rw [h]
      rfl
    rw [hv]
    unfold respValidate
    by_cases hver : p.Version ≠ "2.0"
    · rw [if_pos hver]
      rfl
    · rw [if_neg hver, h1, h2]
      rfl
  · intro j p h hver hcase
    have hv : txResponseUnmarshalJSON j = respValidate p := by
      unfold txResponseUnmarshalJSON
      rw [h]
      rfl
    rw [hv]
    unfold respValidate
    rw [if_neg (fun hne => hne hver)]
    rcases hcase with ⟨⟨v, hr⟩, he⟩ | ⟨hr, e, he⟩
    · rw [hr, he]
      rfl
    · rw [hr, he]
      rfl
  · intro r h1 h2
    unfold txResponseMarshalJSON
    rw [h1, h2]
    rfl
  · intro r h1 h2
    unfold txResponseMarshalJSON
    rw [h2]
    cases hres : r.Result with
    | nil => rfl
    | empty => rfl
    | val v =>
      rw [hres] at h1
      simp [Raw.isPos] at h1
  · intro r hm hcase
    unfold txResponseMarshalJSON
    obtain ⟨fs, hfs⟩ := respIdFields_ok r.ID hm
    rcases hcase with ⟨⟨v, hr⟩, he⟩ | ⟨hpos, e, he⟩
    · rw [hr, he, hfs]
      rfl
    · cases hres : r.Result with
      | nil =>
        rw [he, hfs]
        rfl
      | empty =>
        rw [he, hfs]
        rfl
      | val v =>
        rw [hres] at hpos
        simp [Raw.isPos] at hpos

/-- Claim C8 witness: each clause applied to a concrete response or
wire object. -/
theorem claim_C8_witness :
    (txResponseUnmarshalJSON (.obj [("jsonrpc", .str "2.0"), ("result", .int 1),
      ("error", .obj [("code", .int 5), ("message", .str "e")]), ("id", .null)])).isOk
      = false ∧
    (txResponseUnmarshalJSON (.obj [("jsonrpc", .str "2.0")])).isOk = false ∧
    (txResponseUnmarshalJSON (.obj [("jsonrpc", .str "2.0"), ("result", .int 1),
      ("id", .null)])).isOk = true ∧
    (txResponseMarshalJSON ⟨newNullID, .val (.int 1), some ⟨5, "e", .nil⟩⟩).isOk = false ∧
    (txResponseMarshalJSON ⟨newNullID, .nil, none⟩).isOk = false ∧
    (txResponseMarshalJSON ⟨newNullID, .val (.int 1), none⟩).isOk = true :=
  ⟨claim_C8_result_error_exclusive.1 _
      ⟨"2.0", .val (.int 1), some ⟨5, "e", .nil⟩, newNullID⟩ rfl rfl rfl,
   claim_C8_result_error_exclusive.2.1 _ ⟨"2.0", .nil, none, newUndefinedID⟩ rfl rfl rfl,
   claim_C8_result_error_exclusive.2.2.1 _ ⟨"2.0", .val (.int 1), none, newNullID⟩ rfl rfl
     (.inl ⟨⟨.int 1, rfl⟩, rfl⟩),
   claim_C8_result_error_exclusive.2.2.2.1 _ rfl rfl,
   claim_C8_result_error_exclusive.2.2.2.2.1 _ rfl rfl,
   claim_C8_result_error_exclusive.2.2.2.2.2 _ (fun hty => absurd hty (by decide))
     (.inl ⟨⟨.int 1, rfl⟩, rfl⟩)⟩

/-- Storing at a key already present in the listeners map keeps its key
set. -/
theorem load_store_keys (l : Listeners) (k : Int) (v : Slot) (s : Slot)
    (h : load l k = some s) : listKeys (store l k v) = listKeys l := by
  induction l with
  | nil => exact Option.noConfusion h
  | cons hd tl ih =>
    obtain ⟨k', s'⟩ := hd
    unfold load at h
    unfold store
    by_cases hk : k' = k
    · rw [if_pos hk]
      rfl
    · rw [if_neg hk] at h
      rw [if_neg hk]
      show k' :: listKeys (store tl k v) = k' :: listKeys tl
      rw [ih h]

/-- Deleting a key removes it from the listeners map. -/
theorem load_del_self (l : Listeners) (k : Int) : load (del l k) k = none := by
  induction l with
  | nil => rfl
  | cons hd tl ih =>
    obtain ⟨k', s'⟩ := hd
    unfold del
    by_cases hk : k' = k
    · rw [if_pos hk]
      exact ih
    · rw [if_neg hk]
      unfold load
      rw [if_neg hk]
      exact ih

/-- One demultiplexer object step preserves the key set of the
listeners map. -/
theorem processObject_keys (h : List HandlerAction) (st : LoopState) (o : txObject) :
    listKeys (processObject h st o).listeners = listKeys st.listeners := by
  obtain ⟨oreq, oresp⟩ := o
  cases oreq with
  | some req => rfl
  | none =>
    cases oresp with
    | none => rfl
    | some resp =>
      simp only [processObject]
      by_cases hid : (resp.ID.IsUndefined || resp.ID.IsNull) = true
      · rw [if_pos hid]
      · rw [if_neg hid]
        split
        · rfl
        · next heq => exact load_store_keys st.listeners _ _ _ heq
        · rfl

/-- The demultiplexer's object loop preserves the key set of the
listeners map. -/
theorem foldObjects_keys (h : List HandlerAction) (os : List txObject) :
    ∀ st : LoopState,
      listKeys ((os.foldl (processObject h) st).listeners) = listKeys st.listeners := by
  induction os with
  | nil => intro st; rfl
  | cons o rest ih =>
    intro st
    show listKeys ((rest.foldl (processObject h) (processObject h st o)).listeners) =
      listKeys st.listeners
    rw [ih (processObject h st o), processObject_keys]

/-- Claim C9 counterexample: when `Batch.Commit`'s send fails, it
returns the transport error *without* unregistering the entries its
`Batch.Invoke` calls stored: the listener at key 7 registered by the
batch is still in the map after commit exits, so the caller does not
remove its entry on every exit path. -/
theorem claim_C9_counterexample :
    commitRun false [(7, .ctxDone)] [(7, none)] = .ret (some .sendErr) [(7, none)] ∧
    load [(7, none)] 7 = some none :=
  ⟨rfl, rfl⟩

/-- Claim C9 (amended): the demultiplexer never inserts into or deletes
from the listeners map (its iteration preserves the key set); a
response whose id has no registered entry is discarded with a warning
and the map is left untouched; `Client.Invoke` removes its entry on
every exit path; but `Batch.Commit`, when its send fails, returns with
the map unchanged, leaving the batch's registered entries behind. -/
theorem claim_C9_correlator_discipline :
    (∀ (h : List HandlerAction) (l : Listeners) (r : ReadResult) (w : Bool),
      listKeys ((processOneMessage h l r w).listeners) = listKeys l) ∧
    (∀ (h : List HandlerAction) (st : LoopState) (o : txObject) (resp : txResponse),
      o.Request = none → o.Response = some resp →
      resp.ID.IsUndefined = false → resp.ID.IsNull = false →
      load st.listeners (convertID resp.ID) = none →
      (processObject h st o).listeners = st.listeners ∧
      (processObject h st o).warnings =
        st.warnings ++ ["missing listener for message response"]) ∧
    (∀ (l : Listeners) (k : Int) (env : InvokeEnv),
      load ((invokeRun l k env).2) k = none) ∧
    (∀ (ws : List (Int × BatchWait)) (l : Listeners),
      commitRun false ws l = .ret (some .sendErr) l) := by
  refine ⟨?_, ?_, ?_, ?_⟩
  · intro h l r w
    cases r with
    | recoverable s => rfl
    | terminal s => rfl
    | msg m =>
      have hk := foldObjects_keys h m.Objects ⟨l, [], []⟩
      simp only [processOneMessage]
      split
      · exact hk
      · exact hk
  · intro h st o resp h1 h2 h3 h4 h5
    simp [processObject, h1, h2, h3, h4, h5]
  · intro l k env
    cases env with
    | sendFail => exact load_del_self (store l k none) k
    | ctxCancelled => exact load_del_self (store l k none) k
    | resp o => exact load_del_self (store l k none) k
  · intro ws l
    rfl

/-- Claim C9 witness: the amended statement applied to a terminal read,
an unknown-id response, an invoke, and a failed batch send. -/
theorem claim_C9_witness :
    listKeys ((processOneMessage [] [] (.terminal "eof") true).listeners) = listKeys [] ∧
    (processObject [] ⟨[], [], []⟩
      ⟨none, some ⟨newStringID "9", .nil, some ⟨1, "e", .nil⟩⟩⟩).listeners = [] ∧
    (processObject [] ⟨[], [], []⟩
      ⟨none, some ⟨newStringID "9", .nil, some ⟨1, "e", .nil⟩⟩⟩).warnings =
      [] ++ ["missing listener for message response"] ∧
    load ((invokeRun [] 1 .ctxCancelled).2) 1 = none ∧
    commitRun false [] [] = .ret (some .sendErr) [] :=
  ⟨claim_C9_correlator_discipline.1 [] [] (.terminal "eof") true,
   (claim_C9_correlator_discipline.2.1 [] ⟨[], [], []⟩
     ⟨none, some ⟨newStringID "9", .nil, some ⟨1, "e", .nil⟩⟩⟩
     ⟨newStringID "9", .nil, some ⟨1, "e", .nil⟩⟩ rfl rfl rfl rfl rfl).1,
   (claim_C9_correlator_discipline.2.1 [] ⟨[], [], []⟩
     ⟨none, some ⟨newStringID "9", .nil, some ⟨1, "e", .nil⟩⟩⟩
     ⟨newStringID "9", .nil, some ⟨1, "e", .nil⟩⟩ rfl rfl rfl rfl rfl).2,
   claim_C9_correlator_discipline.2.2.1 [] 1 .ctxCancelled,
   claim_C9_correlator_discipline.2.2.2 [] []⟩

/-- Claim C10: every successful `id.UnmarshalJSON` yields a defined id,
and the value is one of the three constructor forms (null, in-range
number, or string); the undefined id arises only as the zero value when
the enclosing object omits the field. -/
theorem claim_C10_decoded_id_defined (j : Json) (v : id) (h : idUnmarshalJSON j = .ok v) :
    v.IsUndefined = false ∧
    (v = newNullID ∨ (∃ n : Int, v = newNumberID n) ∨ ∃ s : String, v = newStringID s) := by
  cases j with
  | null =>
    injection h with h
    subst h
    exact ⟨rfl, .inl rfl⟩
  | int n =>
    simp only [idUnmarshalJSON] at h
    split at h
    · injection h with h
      subst h
      exact ⟨rfl, .inr (.inl ⟨n, rfl⟩)⟩
    · exact Except.noConfusion h
  | str s =>
    injection h with h
    subst h
    exact ⟨rfl, .inr (.inr ⟨s, rfl⟩)⟩
  | bool b => exact Except.noConfusion h
  | float => exact Except.noConfusion h
  | arr xs => exact Except.noConfusion h
  | obj fs => exact Except.noConfusion h

/-- Claim C10 witness: the statement applied to the JSON null id. -/
theorem claim_C10_witness :
    (newNullID).IsUndefined = false ∧
    (newNullID = newNullID ∨ (∃ n : Int, newNullID = newNumberID n) ∨
      ∃ s : String, newNullID = newStringID s) :=
  claim_C10_decoded_id_defined .null newNullID rfl

end Jsonrpc2
